import Mathlib

/-!
Shallow embedding of the cube-scanner service (config.py, cube_service.py,
server.py, camera_service.py, uart_service.py, utils.py).

Modelling conventions:
* Python `float` values are modelled as exact rationals (`ℚ`).
* Python `dict`s with string keys are modelled as association lists
  (`List (String × β)`) looked up by `dictLookup` (first match; the
  dictionaries built by the code never carry duplicate keys).
* Python exceptions raised by a function are modelled with `Except String`.
* A string is its sequence of characters (`String.data`).
-/

/-- Dictionary lookup on an association list, first matching key wins. -/
def dictLookup {β : Type} (k : String) : List (String × β) → Option β
  | [] => none
  | p :: rest => if p.1 = k then some p.2 else dictLookup k rest

/-- utils.clamp: `max(lower, min(value, upper))`. -/
def clamp (value lower upper : ℚ) : ℚ := max lower (min value upper)

/-- config.FACE_ORDER. -/
def FACE_ORDER : List String := ["U", "R", "F", "D", "L", "B"]

/-- config.COLOR_PROTOTYPES_HSV (insertion order of the Python dict). -/
def COLOR_PROTOTYPES_HSV : List (String × (ℚ × ℚ × ℚ)) :=
  [("W", (0, 15, 235)), ("Y", (30, 220, 220)), ("R", (2, 230, 210)),
   ("O", (17, 235, 230)), ("B", (108, 230, 200)), ("G", (65, 225, 180))]

/-- config.COLOR_NAMES. -/
def COLOR_NAMES : List (String × String) :=
  [("W", "White"), ("Y", "Yellow"), ("R", "Red"), ("O", "Orange"),
   ("B", "Blue"), ("G", "Green"), ("?", "Unknown")]

/-- Membership test `color in COLOR_PROTOTYPES_HSV` (a Python dict key test). -/
def isProtoColor (c : String) : Bool := (dictLookup c COLOR_PROTOTYPES_HSV).isSome

/-- Weighted HSV distance computed in the loop body of server.classify_hsv:
`0.55 * hue_dist + 0.25 * sat_dist + 0.20 * val_dist` with the circular hue
distance divided by 90 and saturation/value distances divided by 255. -/
def protoScore (mean_hsv : ℚ × ℚ × ℚ) (p : String × (ℚ × ℚ × ℚ)) : ℚ :=
  let h := mean_hsv.1
  let s := mean_hsv.2.1
  let v := mean_hsv.2.2
  let hue_dist := (min |h - p.2.1| (180 - |h - p.2.1|)) / 90
  let sat_dist := |s - p.2.2.1| / 255
  let val_dist := |v - p.2.2.2| / 255
  55/100 * hue_dist + 25/100 * sat_dist + 20/100 * val_dist

/-- Ordering of `(score, color)` pairs by score, as used by
`distances.sort(key=lambda item: item[0])`. -/
def leKey (a b : ℚ × String) : Prop := a.1 ≤ b.1

instance : DecidableRel leKey := fun a b => inferInstanceAs (Decidable (a.1 ≤ b.1))

instance : IsTotal (ℚ × String) leKey := ⟨fun a b => le_total a.1 b.1⟩

instance : IsTrans (ℚ × String) leKey := ⟨fun _ _ _ h1 h2 => le_trans h1 h2⟩

/-- server.classify_hsv. Python's `list.sort` is a stable sort by the given
key; `List.insertionSort leKey` is stable for equal keys, so it models it
exactly. -/
def classify_hsv (mean_hsv : ℚ × ℚ × ℚ) : String × ℚ :=
  let s := mean_hsv.2.1
  let v := mean_hsv.2.2
  if s < 35 ∧ v > 120 then ("W", 78/100)
  else
    let distances := COLOR_PROTOTYPES_HSV.map (fun p => (protoScore mean_hsv p, p.1))
    let sorted := List.insertionSort leKey distances
    let best := sorted.headD (0, "W")
    let second_score := if 1 < sorted.length then (sorted.getD 1 (0, "W")).1 else 1
    (best.2, clamp (1 - best.1 / (second_score + 1/1000000)) (5/100) (99/100))

/-- One entry of a per-camera detection list as consumed by
cube_service.build_face_state: only the `face`, `index` and `color` keys are
read there (`index` after Python's `int(...)` coercion, hence `ℤ`). -/
structure Sticker where
  face : String
  index : ℤ
  color : String

/-- The face-layout dictionary `Dict[str, List[str]]`. -/
abbrev FaceState : Type := List (String × List String)

/-- Effect of one loop iteration of cube_service.build_face_state:
`if face in faces and 0 <= index <= 8: faces[face][index] = sticker["color"]`. -/
def writeSticker (faces : FaceState) (s : Sticker) : FaceState :=
  if (dictLookup s.face faces).isSome ∧ 0 ≤ s.index ∧ s.index ≤ 8 then
    faces.map (fun p => if p.1 = s.face then (p.1, p.2.set s.index.toNat s.color) else p)
  else faces

/-- cube_service.build_face_state. -/
def build_face_state (detections : List (String × List Sticker)) : FaceState × Bool :=
  let faces := detections.foldl (fun acc cam => cam.2.foldl writeSticker acc)
      (FACE_ORDER.map fun f => (f, List.replicate 9 "?"))
  let complete := faces.all fun p =>
    p.2.length == 9 && p.2.all fun color => isProtoColor color
  (faces, complete)

/-- First loop of cube_service.cube_to_kociemba_input: every face of
FACE_ORDER must be present with exactly 9 entries. -/
def checkFaces (fs : FaceState) : List String → Except String Unit
  | [] => Except.ok ()
  | f :: rest =>
    match dictLookup f fs with
    | none => Except.error ("Face " ++ f ++ " is missing or incomplete")
    | some vals =>
      if vals.length = 9 then checkFaces fs rest
      else Except.error ("Face " ++ f ++ " is missing or incomplete")

/-- Read of the center slot `face_state[face][4]`. (The defaults can only be
hit on layouts rejected by `checkFaces`, which runs first.) -/
def centerRead (fs : FaceState) (f : String) : String :=
  ((dictLookup f fs).getD []).getD 4 "?"

/-- Second loop of cube_service.cube_to_kociemba_input: collect the center
color of every face, failing on a center outside the known color set. -/
def getCenters (fs : FaceState) : List String → Except String (List (String × String))
  | [] => Except.ok []
  | f :: rest =>
    let c := centerRead fs f
    if isProtoColor c then
      match getCenters fs rest with
      | Except.ok cs => Except.ok ((f, c) :: cs)
      | Except.error e => Except.error e
    else
      Except.error ("Center sticker of face " ++ f ++ " is unknown (" ++ c ++ ")")

/-- Inner loop of the final phase of cube_to_kociemba_input: map every color
of one face through the color→face dictionary. -/
def mapFaceColors (c2f : List (String × String)) : List String → Except String (List String)
  | [] => Except.ok []
  | c :: cs =>
    match dictLookup c c2f with
    | none => Except.error ("Color " ++ c ++ " has no matching center face")
    | some f =>
      match mapFaceColors c2f cs with
      | Except.ok ls => Except.ok (f :: ls)
      | Except.error e => Except.error e

/-- Outer loop of the final phase of cube_to_kociemba_input, over FACE_ORDER. -/
def mapAllFaces (c2f : List (String × String)) (fs : FaceState) :
    List String → Except String (List String)
  | [] => Except.ok []
  | f :: rest =>
    match mapFaceColors c2f ((dictLookup f fs).getD []) with
    | Except.error e => Except.error e
    | Except.ok part =>
      match mapAllFaces c2f fs rest with
      | Except.ok tail => Except.ok (part ++ tail)
      | Except.error e => Except.error e

/-- cube_service.cube_to_kociemba_input. The color→face dict comprehension
`{color: face for face, color in centers.items()}` is modelled by the
reversed swapped association list (later entries of a Python dict
comprehension overwrite earlier ones). -/
def cube_to_kociemba_input (face_state : FaceState) : Except String String :=
  match checkFaces face_state FACE_ORDER with
  | Except.error e => Except.error e
  | Except.ok _ =>
    match getCenters face_state FACE_ORDER with
    | Except.error e => Except.error e
    | Except.ok centers =>
      if (centers.map Prod.snd).dedup.length ≠ 6 then
        Except.error "Center colors are not unique; cube orientation cannot be inferred"
      else
        let color_to_face := (centers.map (fun p => (p.2, p.1))).reverse
        match mapAllFaces color_to_face face_state FACE_ORDER with
        | Except.error e => Except.error e
        | Except.ok result => Except.ok (String.join result)

/-- The center association `face ↦ (face, its center color)` over the
canonical face order, i.e. the `centers` dictionary of
cube_to_kociemba_input on a layout that passes the center checks. -/
def centersOf (fs : FaceState) : List (String × String) :=
  FACE_ORDER.map fun f => (f, centerRead fs f)

/-- Pixel contents of an image buffer: a color per (row, column) position.
All frames of the program have 3 channels of 8-bit values, so a pixel is a
triple of naturals. -/
def PixelMap : Type := ℕ → ℕ → ℕ × ℕ × ℕ

/-- A numpy image array (a frame of the pipeline): its shape
`(height, width, 3)` plus the pixel contents. (Named `Image` only because
`Frame` already names an order-theoretic structure in the ambient library.) -/
structure Image where
  height : ℕ
  width : ℕ
  px : PixelMap

/-- numpy `array.size` for a `(height, width, 3)` array. -/
def Image.size (f : Image) : ℕ := f.height * f.width * 3

/-- numpy `frame.copy()`: a fresh buffer with equal contents; identity in a
pure-value model. -/
def Image.copy (f : Image) : Image := f

/-- numpy slicing `frame[y1:y2, x1:x2]`: slice bounds are clamped to the
actual extent of the array. -/
def Image.crop (f : Image) (x1 y1 x2 y2 : ℕ) : Image :=
  { height := min y2 f.height - min y1 f.height
    width := min x2 f.width - min x1 f.width
    px := fun r c => f.px (min y1 f.height + r) (min x1 f.width + c) }

/-- A region-of-interest record as read by server.roi_to_pixels and
server.detect_for_camera (`id`, `face`, `index`, and the normalized
rectangle `x, y, w, h`). -/
structure Roi where
  id : String
  face : String
  index : ℤ
  x : ℚ
  y : ℚ
  w : ℚ
  h : ℚ

/-- server.roi_to_pixels. Python `int(...)` truncates toward zero; every
operand here is nonnegative, so it is the floor. -/
def roi_to_pixels (roi : Roi) (frame_width frame_height : ℕ) : ℕ × ℕ × ℕ × ℕ :=
  let x1 := (clamp roi.x 0 (999/1000) * frame_width).floor.toNat
  let y1 := (clamp roi.y 0 (999/1000) * frame_height).floor.toNat
  let x2 := (clamp (roi.x + roi.w) (1/1000) 1 * frame_width).floor.toNat
  let y2 := (clamp (roi.y + roi.h) (1/1000) 1 * frame_height).floor.toNat
  (x1, y1, max x2 (x1 + 1), max y2 (y1 + 1))

/-- A detection record emitted by server.detect_for_camera. -/
structure Detection where
  id : String
  face : String
  index : ℤ
  color : String
  color_name : String
  confidence : ℚ
  label : String

/-- Python's built-in `round(q)`: nearest integer, ties to the even one. -/
def pyRound (q : ℚ) : ℤ :=
  if q - ⌊q⌋ < 1/2 then ⌊q⌋
  else if 1/2 < q - ⌊q⌋ then ⌊q⌋ + 1
  else if Even ⌊q⌋ then ⌊q⌋ else ⌊q⌋ + 1

/-- Python's `round(q, 3)`: rounding to 3 decimal places. -/
def pyRound3 (q : ℚ) : ℚ := (pyRound (q * 1000) : ℚ) / 1000

/-- `COLOR_NAMES.get(code, "Unknown")`. -/
def colorNameOf (code : String) : String := (dictLookup code COLOR_NAMES).getD "Unknown"

/-- The detection record built in the unavailable-imaging branch of
server.detect_for_camera (color `"?"`, confidence 0, label `"?0%"`). -/
def unknownDetection (roi : Roi) : Detection :=
  { id := roi.id, face := roi.face, index := roi.index, color := "?",
    color_name := colorNameOf "?", confidence := 0, label := "?0%" }

/-- The mean-HSV reduction `cv2.cvtColor(crop, COLOR_BGR2HSV).mean(axis=(0,1))`
is external imaging code (OpenCV); the pipeline is parametrized by it. -/
structure ImagingEnv where
  cv2_available : Bool
  np_available : Bool
  meanHSV : Image → ℚ × ℚ × ℚ

/-- The crop `frame[y1:y2, x1:x2]` of a frame at a region's pixel
rectangle. -/
def cropOf (frame : Image) (roi : Roi) : Image :=
  let q := roi_to_pixels roi frame.width frame.height
  frame.crop q.1 q.2.1 q.2.2.1 q.2.2.2

/-- Body of the per-region loop of server.detect_for_camera for an
available frame. -/
def detectRoi (env : ImagingEnv) (frame : Image) (roi : Roi) : Detection :=
  let crop := cropOf frame roi
  let cc :=
    if crop.size = 0 then ("?", (0 : ℚ))
    else classify_hsv (env.meanHSV crop)
  let confidence_pct := pyRound (cc.2 * 100)
  { id := roi.id, face := roi.face, index := roi.index, color := cc.1,
    color_name := colorNameOf cc.1, confidence := pyRound3 cc.2,
    label := cc.1 ++ toString confidence_pct ++ "%" }

/-- server.detect_for_camera. The frame argument stands for the result of
`camera_manager.get_frame(camera_id)`. -/
def detect_for_camera (env : ImagingEnv) (frame : Option Image) (rois : List Roi) :
    List Detection :=
  match frame with
  | none => rois.map unknownDetection
  | some f =>
    if env.cv2_available = false ∨ env.np_available = false then rois.map unknownDetection
    else rois.map (detectRoi env f)

/-- OpenCV drawing primitives used by the placeholder builder; they draw into
an existing buffer, so they transform pixel contents and never the shape.
`putText` takes the text, origin, font scale, color and thickness;
`rectangle` takes the two corners, color and thickness. -/
structure CvDraw where
  putText : PixelMap → String → ℤ × ℤ → ℚ → ℕ × ℕ × ℕ → ℕ → PixelMap
  rectangle : PixelMap → (ℤ × ℤ) → (ℤ × ℤ) → ℕ × ℕ × ℕ → ℕ → PixelMap

/-- The fields of camera_service.CameraStream read by `get_frame` and
`_build_placeholder`, together with the imaging-module availability flags
(`self._np`, `self._cv2`) and the drawing primitives. -/
structure CameraStream where
  camera_id : ℤ
  width : ℕ := 960
  height : ℕ := 720
  np_available : Bool
  cv2_available : Bool
  cv : CvDraw
  latest_frame : Option Image

/-- camera_service.CameraStream._build_placeholder: `None` without numpy and
OpenCV; otherwise a `(height, width, 3)` canvas filled with (233, 239, 242),
annotated by two `putText` calls and one `rectangle` call. -/
def build_placeholder (st : CameraStream) (message : String) : Option Image :=
  if st.np_available = false ∨ st.cv2_available = false then none
  else
    let base : PixelMap := fun _ _ => (233, 239, 242)
    let f1 := st.cv.putText base ("Camera " ++ toString st.camera_id) (30, 80)
      (13/10) (36, 66, 81) 3
    let f2 := st.cv.putText f1 (message.take 80) (30, 140) (8/10) (36, 66, 81) 2
    let f3 := st.cv.rectangle f2 (20, 20) ((st.width : ℤ) - 20, (st.height : ℤ) - 20)
      (68, 124, 145) 3
    some { height := st.height, width := st.width, px := f3 }

/-- camera_service.CameraStream.get_frame (the body under `self._lock`). -/
def get_frame (st : CameraStream) : Option Image :=
  match st.latest_frame with
  | none => build_placeholder st "No frame yet"
  | some f => if st.np_available then some f.copy else some f

/-- The dictionary returned by uart_service.send_uart_command. -/
structure UartResult where
  port : String
  baud : ℕ
  sent : String
  response : String

/-- A JSON reply of the /api/solve route: either the success payload or an
error payload with its HTTP status; the UART-failure error payload also
carries the solution. -/
inductive SolveReply where
  | ok (captured_at : Option ℚ) (kociemba_input : String) (solution : String)
      (uart : Option UartResult) : SolveReply
  | err (status : ℕ) (error : String) (solution : Option String) : SolveReply

/-- The fields of the cube-state snapshot read by server.api_solve. -/
structure CubeStateSnapshot where
  captured_at : Option ℚ
  complete : Bool
  kociemba_input : Option String
  faces : FaceState

/-- Resolution of the solver input in server.api_solve:
`kociemba_input = state.get("kociemba_input"); if not kociemba_input:` falls
back to recomputing it from the faces (`None` and the empty string are
falsy). -/
def resolveSolverInput (state : CubeStateSnapshot) : Except String String :=
  let recompute : Except String String :=
    match cube_to_kociemba_input state.faces with
    | Except.ok s => Except.ok s
    | Except.error e => Except.error ("Failed to generate kociemba input: " ++ e)
  match state.kociemba_input with
  | none => recompute
  | some s => if s = "" then recompute else Except.ok s

/-- server.api_solve after the request payload has been parsed.
`current_state` is the locked snapshot of the global cube state,
`captured_state` the state a `capture_first` request would capture;
`kociembaSolve` models the optional kociemba package (`kociemba.solve` may
raise), `uartSend` models `send_uart_command` together with its serial
environment (the transport collaborator, which may raise). -/
def api_solve (current_state captured_state : CubeStateSnapshot)
    (capture_first send_uart : Bool)
    (kociembaSolve : Option (String → Except String String))
    (uartSend : String → Except String UartResult) : SolveReply :=
  let state := if capture_first then captured_state else current_state
  if state.complete = false then
    SolveReply.err 400 "Cube state is incomplete. Capture a full state first." none
  else
    match resolveSolverInput state with
    | Except.error e => SolveReply.err 400 e none
    | Except.ok kociemba_input =>
      match kociembaSolve with
      | none => SolveReply.err 500 "kociemba package is not installed" none
      | some solve =>
        match solve kociemba_input with
        | Except.error e => SolveReply.err 500 ("kociemba.solve failed: " ++ e) none
        | Except.ok solution =>
          if send_uart then
            match uartSend solution with
            | Except.error e =>
              SolveReply.err 500 ("UART send failed: " ++ e) (some solution)
            | Except.ok uart_result =>
              SolveReply.ok state.captured_at kociemba_input solution (some uart_result)
          else
            SolveReply.ok state.captured_at kociemba_input solution none

/-- First character of a (single-character) face name. -/
def faceChar (f : String) : Char := f.data.headD ' '

/-- The characters of the six face letters, in canonical order. -/
def faceLetters : List Char := FACE_ORDER.map faceChar

/-- Number of occurrences of a color among all slots of a face layout,
taken over the canonical faces. -/
def countColorAll (fs : FaceState) (c : String) : ℕ :=
  (FACE_ORDER.map fun f => ((dictLookup f fs).getD []).count c).sum

/-- Last-writer-wins value of slot `(f, i)` over a detection set: the color
of the last detection (in iteration order over cameras, then regions)
addressing that slot, or `"?"` when none does. -/
def slotAfter (d : List (String × List Sticker)) (f : String) (i : ℕ) : String :=
  ((d.map Prod.snd).flatten).foldl
    (fun cur s => if s.face = f ∧ s.index = (i : ℤ) then s.color else cur) "?"

/-- Face layout of a solved-looking cube: each face uniformly its own
center color. -/
def fsGood : FaceState :=
  [("U", List.replicate 9 "W"), ("R", List.replicate 9 "Y"), ("F", List.replicate 9 "R"),
   ("D", List.replicate 9 "O"), ("L", List.replicate 9 "B"), ("B", List.replicate 9 "G")]

/-- Complete face layout with six pairwise-distinct known centers in which
the color `"W"` occupies 17 slots (all of face U and 8 slots of face R). -/
def fsSkew : FaceState :=
  [("U", List.replicate 9 "W"),
   ("R", ["W", "W", "W", "W", "Y", "W", "W", "W", "W"]),
   ("F", List.replicate 9 "R"), ("D", List.replicate 9 "O"),
   ("L", List.replicate 9 "B"), ("B", List.replicate 9 "G")]

/-- Complete face layout in which every center carries the same known
color. -/
def fsDup : FaceState := FACE_ORDER.map fun f => (f, List.replicate 9 "W")

/-- Detection set covering all 54 stickers with a known color. -/
def dFull : List (String × List Sticker) :=
  [("0", (FACE_ORDER.map fun f =>
      (List.range 9).map fun i => Sticker.mk f (i : ℤ) "W").flatten)]

/-- The same detection set with its first detection (face U, index 0)
removed. -/
def dMissing : List (String × List Sticker) :=
  [("0", ((FACE_ORDER.map fun f =>
      (List.range 9).map fun i => Sticker.mk f (i : ℤ) "W").flatten).tail)]

/-- Two cameras whose detections address the same slot (U, 2). -/
def dOverlap : List (String × List Sticker) :=
  [("0", [Sticker.mk "U" 2 "G"]), ("1", [Sticker.mk "U" 2 "Y"])]

/-- A detection carrying a color outside the known set and distinct from
`"?"`. -/
def dRogue : List (String × List Sticker) := [("0", [Sticker.mk "U" 0 "X"])]

/-- Drawing primitives that leave the buffer unchanged (sufficient for
observing shapes). -/
def trivialDraw : CvDraw := ⟨fun p _ _ _ _ _ => p, fun p _ _ _ _ => p⟩

/-- A camera stream without numpy/OpenCV and with no published frame. -/
def stNoImaging : CameraStream :=
  { camera_id := 0, np_available := false, cv2_available := false,
    cv := trivialDraw, latest_frame := none }

/-- A camera stream with numpy/OpenCV available and no published frame. -/
def stImaging : CameraStream :=
  { camera_id := 0, np_available := true, cv2_available := true,
    cv := trivialDraw, latest_frame := none }

/-- A detection environment without the imaging libraries. -/
def envNoImaging : ImagingEnv := ⟨false, false, fun _ => (0, 0, 0)⟩

/-- A detection environment with the imaging libraries available. -/
def envImaging : ImagingEnv := ⟨true, true, fun _ => (0, 0, 0)⟩

/-- A sample region. -/
def roiSample : Roi :=
  { id := "U0", face := "U", index := 0, x := 1/10, y := 1/10, w := 2/25, h := 2/25 }

/-- A zero-by-zero frame; every crop of it is structurally empty. -/
def emptyImage : Image := ⟨0, 0, fun _ _ => (0, 0, 0)⟩

/-- A cube-state snapshot marked complete with a stored solver input. -/
def snapComplete : CubeStateSnapshot :=
  { captured_at := some 1, complete := true, kociemba_input := some "K", faces := fsGood }

lemma dictLookup_isSome_iff {β : Type} (k : String) (l : List (String × β)) :
    (dictLookup k l).isSome = true ↔ k ∈ l.map Prod.fst := by
  induction l with
  | nil => simp [dictLookup]
  | cons p rest ih =>
    by_cases h : p.1 = k
    · simp [dictLookup, h]
    · simp [dictLookup, h, ih, Ne.symm h]

lemma min?_eq_some_of {l : List ℚ} {m : ℚ} (hm : m ∈ l) (hb : ∀ y ∈ l, m ≤ y) :
    l.min? = some m := by
  haveI : Std.Antisymm (α := ℚ) (· ≤ ·) := ⟨fun h1 h2 => le_antisymm h1 h2⟩
  exact (List.min?_eq_some_iff (fun a => le_refl a) (fun a b => min_choice a b)
    (fun _ _ _ => le_min_iff)).2 ⟨hm, hb⟩

/-- C5: every HSV input with saturation below 35 and value above 120 is
classified as white with confidence exactly 0.78. -/
theorem classify_white_shortcut (h s v : ℚ) (hs : s < 35) (hv : 120 < v) :
    classify_hsv (h, s, v) = ("W", 78/100) := by
  simp [classify_hsv, hs, hv]

/-- Witness for C5 at the spec's sample input (s = 10, v = 200). -/
theorem classify_white_shortcut_witness :
    (10 : ℚ) < 35 ∧ (120 : ℚ) < 200 ∧ classify_hsv (0, 10, 200) = ("W", 78/100) :=
  ⟨by norm_num, by norm_num,
    classify_white_shortcut 0 10 200 (by norm_num) (by norm_num)⟩

/-- C8: when the solver succeeds but the UART transport raises, /api/solve
returns the 500 error payload that still carries the computed solution. -/
theorem solve_uart_failure_keeps_solution
    (cur cap : CubeStateSnapshot) (capture_first : Bool)
    (solve : String → Except String String)
    (uartSend : String → Except String UartResult)
    (ki sol e : String)
    (hc : (if capture_first then cap else cur).complete = true)
    (hki : resolveSolverInput (if capture_first then cap else cur) = Except.ok ki)
    (hsol : solve ki = Except.ok sol)
    (hu : uartSend sol = Except.error e) :
    api_solve cur cap capture_first true (some solve) uartSend =
      SolveReply.err 500 ("UART send failed: " ++ e) (some sol) := by
  simp [api_solve, hc, hki, hsol, hu]

/-- Witness for C8 on a complete snapshot with a stored solver input, a
solver that answers and a transport that raises. -/
theorem solve_uart_failure_keeps_solution_witness :
    api_solve snapComplete snapComplete false true
        (some fun _ => Except.ok "R U R") (fun _ => Except.error "port closed") =
      SolveReply.err 500 ("UART send failed: " ++ "port closed") (some "R U R") :=
  solve_uart_failure_keeps_solution snapComplete snapComplete false
    (fun _ => Except.ok "R U R") (fun _ => Except.error "port closed")
    "K" "R U R" "port closed" rfl rfl rfl rfl

lemma pyRound_zero : pyRound 0 = 0 := by
  norm_num [pyRound]

lemma pyRound3_zero : pyRound3 0 = 0 := by
  norm_num [pyRound3, pyRound]

/-- C6: without a frame or without the imaging libraries, detection yields
one unknown-code detection (confidence 0) per region instead of failing;
with a frame it maps the per-region body over the regions, and a
structurally empty crop likewise yields the unknown code with confidence 0
for that region. -/
theorem detect_degrades_to_unknown (env : ImagingEnv) (frame : Option Image)
    (rois : List Roi) :
    ((frame = none ∨ env.cv2_available = false ∨ env.np_available = false) →
      detect_for_camera env frame rois = rois.map unknownDetection) ∧
    (∀ f : Image, env.cv2_available = true → env.np_available = true →
      detect_for_camera env (some f) rois = rois.map (detectRoi env f)) ∧
    (∀ f : Image, ∀ roi : Roi, (cropOf f roi).size = 0 →
      (detectRoi env f roi).color = "?" ∧ (detectRoi env f roi).confidence = 0) := by
  refine ⟨?_, ?_, ?_⟩
  · rintro (rfl | hcv | hnp)
    · rfl
    · cases frame with
      | none => rfl
      | some f => simp [detect_for_camera, hcv]
    · cases frame with
      | none => rfl
      | some f => simp [detect_for_camera, hnp]
  · intro f hcv hnp
    simp [detect_for_camera, hcv, hnp]
  · intro f roi hcrop
    refine ⟨?_, ?_⟩ <;> simp [detectRoi, hcrop, pyRound3_zero]

/-- Witness for C6: the imaging-free environment maps a region list to
unknown detections, and an empty crop yields the unknown code with
confidence 0. -/
theorem detect_degrades_to_unknown_witness :
    detect_for_camera envNoImaging none [roiSample] = [unknownDetection roiSample] ∧
    (detectRoi envImaging emptyImage roiSample).color = "?" ∧
    (detectRoi envImaging emptyImage roiSample).confidence = 0 :=
  ⟨(detect_degrades_to_unknown envNoImaging none [roiSample]).1 (Or.inl rfl),
   (detect_degrades_to_unknown envImaging none []).2.2 emptyImage roiSample
     (by simp [cropOf, emptyImage, Image.crop, Image.size])⟩

/-- Counterexample for C7 as frozen: with numpy and OpenCV missing and no
frame published yet, CameraStream.get_frame returns no image at all. -/
theorem get_frame_none_counterexample : get_frame stNoImaging = none := by
  simp [get_frame, stNoImaging, build_placeholder]

/-- C7 (amended): whenever numpy and OpenCV are available, get_frame always
returns an image: a copy of the latest published frame if one exists,
otherwise a freshly built placeholder of the stream's configured
height×width. -/
theorem get_frame_total_with_imaging (st : CameraStream)
    (hnp : st.np_available = true) (hcv : st.cv2_available = true) :
    ∃ f : Image, get_frame st = some f ∧
      (∀ g : Image, st.latest_frame = some g → f = g.copy) ∧
      (st.latest_frame = none → f.height = st.height ∧ f.width = st.width) := by
  rcases hl : st.latest_frame with _ | g
  · have hb : ∃ ph : Image, build_placeholder st "No frame yet" = some ph ∧
        ph.height = st.height ∧ ph.width = st.width := by
      unfold build_placeholder
      rw [hnp, hcv]
      rw [if_neg (by simp)]
      exact ⟨_, rfl, rfl, rfl⟩
    obtain ⟨ph, hb1, hb2, hb3⟩ := hb
    refine ⟨ph, ?_, ?_, fun _ => ⟨hb2, hb3⟩⟩
    · unfold get_frame
      rw [hl]
      exact hb1
    · intro g' hg'
      cases hg'
  · refine ⟨g.copy, ?_, ?_, ?_⟩
    · unfold get_frame
      rw [hl, hnp]
      rfl
    · intro g' hg'
      rw [Option.some.inj hg']
    · intro h
      cases h

/-- Witness for C7 (amended): with imaging available and no frame yet,
get_frame returns an image (the placeholder). -/
theorem get_frame_total_with_imaging_witness :
    (get_frame stImaging).isSome = true := by
  obtain ⟨f, hf, -⟩ := get_frame_total_with_imaging stImaging rfl rfl
  rw [hf]
  rfl

lemma dictLookup_eq_some_mem {β : Type} {k : String} {l : List (String × β)} {v : β}
    (h : dictLookup k l = some v) : ∃ p ∈ l, p.1 = k ∧ p.2 = v := by
  induction l with
  | nil => simp [dictLookup] at h
  | cons p rest ih =>
    by_cases hp : p.1 = k
    · rw [dictLookup, if_pos hp] at h
      exact ⟨p, List.mem_cons_self p rest, hp, Option.some.inj h⟩
    · rw [dictLookup, if_neg hp] at h
      obtain ⟨q, hq, hq1, hq2⟩ := ih h
      exact ⟨q, List.mem_cons_of_mem p hq, hq1, hq2⟩

lemma dictLookup_const {β : Type} (c : β) (L : List String) (f : String) (hf : f ∈ L) :
    dictLookup f (L.map fun k => (k, c)) = some c := by
  induction L with
  | nil => cases hf
  | cons k rest ih =>
    by_cases hk : k = f
    · simp [dictLookup, hk]
    · rcases List.mem_cons.1 hf with h | h
      · exact absurd h.symm hk
      · simp only [List.map_cons, dictLookup, if_neg hk]
        exact ih h

lemma map_fst_update (faces : FaceState) (t : String) (n : ℕ) (c : String) :
    (faces.map fun p => if p.1 = t then (p.1, p.2.set n c) else p).map Prod.fst =
      faces.map Prod.fst := by
  induction faces with
  | nil => rfl
  | cons p rest ih =>
    by_cases h : p.1 = t <;> simp [h, ih]

lemma dictLookup_update (faces : FaceState) (t : String) (n : ℕ) (c : String)
    (f : String) :
    dictLookup f (faces.map fun p => if p.1 = t then (p.1, p.2.set n c) else p) =
      if f = t then (dictLookup f faces).map (fun l => l.set n c)
      else dictLookup f faces := by
  induction faces with
  | nil => simp [dictLookup]
  | cons p rest ih =>
    by_cases hpf : p.1 = f
    · by_cases hpt : p.1 = t
      · have h1 : t = f := hpt.symm.trans hpf
        simp [dictLookup, hpf, hpt, h1.symm]
      · have hft : ¬ f = t := fun h => hpt (hpf.trans h)
        simp [dictLookup, hpf, hpt, hft]
    · by_cases hpt : p.1 = t
      · have h1 : ¬ t = f := fun h => hpf (hpt.trans h)
        have h2 : ¬ f = t := fun h => h1 h.symm
        simp [dictLookup, hpf, hpt, h1, h2, ih]
      · simp [dictLookup, hpf, hpt, ih]

lemma writeSticker_map_fst (faces : FaceState) (s : Sticker) :
    (writeSticker faces s).map Prod.fst = faces.map Prod.fst := by
  unfold writeSticker
  split
  · exact map_fst_update faces s.face s.index.toNat s.color
  · rfl

lemma writeSticker_lengths (faces : FaceState) (s : Sticker)
    (h : ∀ p ∈ faces, p.2.length = 9) : ∀ p ∈ writeSticker faces s, p.2.length = 9 := by
  unfold writeSticker
  split
  · intro p hp
    obtain ⟨q, hq, rfl⟩ := List.mem_map.1 hp
    by_cases hqf : q.1 = s.face <;> simp [hqf, List.length_set, h q hq]
  · exact h

lemma writeSticker_colors (faces : FaceState) (s : Sticker) (P : String → Prop)
    (hP : ∀ p ∈ faces, ∀ c ∈ p.2, P c) (hs : P s.color) :
    ∀ p ∈ writeSticker faces s, ∀ c ∈ p.2, P c := by
  unfold writeSticker
  split
  · intro p hp c hc
    obtain ⟨q, hq, rfl⟩ := List.mem_map.1 hp
    by_cases hqf : q.1 = s.face
    · simp only [hqf, if_pos rfl] at hc
      rcases List.mem_or_eq_of_mem_set hc with h | rfl
      · exact hP q hq c h
      · exact hs
    · simp only [if_neg hqf] at hc
      exact hP q hq c hc
  · exact hP

lemma slot_writeSticker (faces : FaceState) (s : Sticker) (f : String) (i : ℕ)
    (hi : i < 9) (hsome : (dictLookup f faces).isSome = true)
    (hlen : ∀ p ∈ faces, p.2.length = 9) :
    ((dictLookup f (writeSticker faces s)).getD []).getD i "?" =
      if s.face = f ∧ s.index = (i : ℤ) then s.color
      else ((dictLookup f faces).getD []).getD i "?" := by
  unfold writeSticker
  by_cases hcond : (dictLookup s.face faces).isSome = true ∧ 0 ≤ s.index ∧ s.index ≤ 8
  · rw [if_pos hcond, dictLookup_update]
    by_cases hf : f = s.face
    · subst hf
      rw [if_pos rfl]
      obtain ⟨vals, hv⟩ := Option.isSome_iff_exists.1 hsome
      obtain ⟨p, hp, -, hp2⟩ := dictLookup_eq_some_mem hv
      have hvl : vals.length = 9 := hp2 ▸ hlen p hp
      rw [hv]
      by_cases hidx : s.index = (i : ℤ)
      · have htn : s.index.toNat = i := by omega
        simp [hidx, htn, List.getD_eq_getElem?_getD, List.getElem?_set, hvl, hi]
      · have hne : ¬ s.index.toNat = i := by omega
        simp [hidx, hne, List.getD_eq_getElem?_getD, List.getElem?_set, hv]
    · rw [if_neg hf,
        if_neg (fun hc : s.face = f ∧ s.index = (i : ℤ) => hf hc.1.symm)]
  · rw [if_neg hcond]
    by_cases hsf : s.face = f ∧ s.index = (i : ℤ)
    · exfalso
      apply hcond
      refine ⟨hsf.1 ▸ hsome, by omega, by omega⟩
    · rw [if_neg hsf]

lemma foldl_writeSticker_map_fst (l : List Sticker) :
    ∀ faces : FaceState,
      (l.foldl writeSticker faces).map Prod.fst = faces.map Prod.fst := by
  induction l with
  | nil => intro faces; rfl
  | cons s rest ih =>
    intro faces
    rw [List.foldl_cons, ih, writeSticker_map_fst]

lemma foldl_writeSticker_lengths (l : List Sticker) :
    ∀ faces : FaceState, (∀ p ∈ faces, p.2.length = 9) →
      ∀ p ∈ l.foldl writeSticker faces, p.2.length = 9 := by
  induction l with
  | nil => exact fun faces h => h
  | cons s rest ih =>
    intro faces h
    exact ih (writeSticker faces s) (writeSticker_lengths faces s h)

lemma foldl_writeSticker_colors (l : List Sticker) (P : String → Prop) :
    ∀ faces : FaceState, (∀ p ∈ faces, ∀ c ∈ p.2, P c) → (∀ s ∈ l, P s.color) →
      ∀ p ∈ l.foldl writeSticker faces, ∀ c ∈ p.2, P c := by
  induction l with
  | nil => exact fun faces h _ => h
  | cons s rest ih =>
    intro faces h hl
    exact ih (writeSticker faces s)
      (writeSticker_colors faces s P h (hl s (List.mem_cons_self s rest)))
      (fun t ht => hl t (List.mem_cons_of_mem s ht))

lemma slot_fold (l : List Sticker) :
    ∀ faces : FaceState, ∀ f : String, ∀ i : ℕ, i < 9 →
      (dictLookup f faces).isSome = true →
      (∀ p ∈ faces, p.2.length = 9) →
      ((dictLookup f (l.foldl writeSticker faces)).getD []).getD i "?" =
        l.foldl (fun cur s => if s.face = f ∧ s.index = (i : ℤ) then s.color else cur)
          (((dictLookup f faces).getD []).getD i "?") := by
  induction l with
  | nil => intros; rfl
  | cons s rest ih =>
    intro faces f i hi hsome hlen
    have hsome' : (dictLookup f (writeSticker faces s)).isSome = true := by
      rw [dictLookup_isSome_iff, writeSticker_map_fst]
      exact (dictLookup_isSome_iff f faces).1 hsome
    rw [List.foldl_cons, List.foldl_cons,
      ih (writeSticker faces s) f i hi hsome' (writeSticker_lengths faces s hlen),
      slot_writeSticker faces s f i hi hsome hlen]

lemma build_fold_eq (d : List (String × List Sticker)) (init : FaceState) :
    d.foldl (fun acc cam => cam.2.foldl writeSticker acc) init =
      ((d.map Prod.snd).flatten).foldl writeSticker init := by
  rw [List.foldl_flatten, List.foldl_map]

lemma build_faces_eq (d : List (String × List Sticker)) :
    (build_face_state d).1 =
      ((d.map Prod.snd).flatten).foldl writeSticker
        (FACE_ORDER.map fun f => (f, List.replicate 9 "?")) := by
  show d.foldl (fun acc cam => cam.2.foldl writeSticker acc)
      (FACE_ORDER.map fun f => (f, List.replicate 9 "?")) = _
  exact build_fold_eq d _

lemma build_complete_eq (d : List (String × List Sticker)) :
    (build_face_state d).2 =
      (build_face_state d).1.all fun p =>
        p.2.length == 9 && p.2.all fun color => isProtoColor color := rfl

lemma build_fst (d : List (String × List Sticker)) :
    (build_face_state d).1.map Prod.fst = FACE_ORDER := by
  rw [build_faces_eq, foldl_writeSticker_map_fst]
  rfl

lemma build_lens (d : List (String × List Sticker)) :
    ∀ p ∈ (build_face_state d).1, p.2.length = 9 := by
  rw [build_faces_eq]
  refine foldl_writeSticker_lengths _ _ ?_
  intro p hp
  obtain ⟨f, -, rfl⟩ := List.mem_map.1 hp
  simp

lemma build_slot (d : List (String × List Sticker)) (f : String) (hf : f ∈ FACE_ORDER)
    (i : ℕ) (hi : i < 9) :
    ((dictLookup f (build_face_state d).1).getD []).getD i "?" = slotAfter d f i := by
  rw [build_faces_eq,
    slot_fold ((d.map Prod.snd).flatten) _ f i hi ?_ ?_]
  · rw [slotAfter, dictLookup_const (List.replicate 9 "?") FACE_ORDER f hf]
    congr 1
    simp only [Option.getD_some, List.getD_eq_getElem?_getD, List.getElem?_replicate]
    split <;> rfl
  · rw [dictLookup_isSome_iff]
    simpa using hf
  · intro p hp
    obtain ⟨g, -, rfl⟩ := List.mem_map.1 hp
    simp

lemma build_colors (d : List (String × List Sticker))
    (hall : ∀ cam ∈ d, ∀ s ∈ cam.2, s.color = "?" ∨ isProtoColor s.color = true) :
    ∀ p ∈ (build_face_state d).1, ∀ c ∈ p.2, c = "?" ∨ isProtoColor c = true := by
  rw [build_faces_eq]
  refine foldl_writeSticker_colors _ _ _ ?_ ?_
  · intro p hp c hc
    obtain ⟨g, -, rfl⟩ := List.mem_map.1 hp
    simp only at hc
    rw [List.eq_of_mem_replicate hc]
    exact Or.inl rfl
  · intro s hs
    rw [List.mem_flatten] at hs
    obtain ⟨l, hl, hsl⟩ := hs
    obtain ⟨cam, hcam, rfl⟩ := List.mem_map.1 hl
    exact hall cam hcam s hsl

set_option maxRecDepth 8000 in
/-- C3: the completeness boolean of build_face_state is true exactly when
every slot of the six assembled faces holds a known (non-unknown) color
code; in particular a detection set covering all 54 stickers with known
codes yields true, and dropping one of those detections yields false. -/
theorem build_face_state_complete_iff :
    (∀ d : List (String × List Sticker),
      ((build_face_state d).2 = true ↔
        ∀ p ∈ (build_face_state d).1, ∀ c ∈ p.2, isProtoColor c = true)) ∧
    (build_face_state dFull).2 = true ∧
    (build_face_state dMissing).2 = false := by
  refine ⟨?_, by decide, by decide⟩
  intro d
  rw [build_complete_eq]
  have hl := build_lens d
  simp only [List.all_eq_true, Bool.and_eq_true, beq_iff_eq]
  constructor
  · intro h p hp c hc
    exact (h p hp).2 c hc
  · intro h p hp
    exact ⟨hl p hp, fun c hc => h p hp c hc⟩

/-- C9 (amended): build_face_state always returns exactly the six canonical
faces with nine entries each; every valid `(face, index)` slot holds the
last written color (detections with unknown faces or out-of-range indices
are ignored, later writers win); and whenever every detection color is a
known code or "?", so is every assembled entry. The unamended entry-range
claim fails for detections carrying other colors, which are copied
verbatim. -/
theorem build_face_state_invariants (d : List (String × List Sticker)) :
    (build_face_state d).1.map Prod.fst = FACE_ORDER ∧
    (∀ p ∈ (build_face_state d).1, p.2.length = 9) ∧
    (∀ f ∈ FACE_ORDER, ∀ i : ℕ, i < 9 →
      ((dictLookup f (build_face_state d).1).getD []).getD i "?" = slotAfter d f i) ∧
    ((∀ cam ∈ d, ∀ s ∈ cam.2, s.color = "?" ∨ isProtoColor s.color = true) →
      ∀ p ∈ (build_face_state d).1, ∀ c ∈ p.2, c = "?" ∨ isProtoColor c = true) :=
  ⟨build_fst d, build_lens d, fun f hf i hi => build_slot d f hf i hi, build_colors d⟩

/-- Counterexample for C9 as frozen: a detection carrying the color "X"
(not a known code and not "?") is written into the layout unchanged, so not
every entry of the result lies in the closed color set extended by "?". -/
theorem build_face_state_rogue_color :
    ¬ ∀ p ∈ (build_face_state dRogue).1, ∀ c ∈ p.2,
        c = "?" ∨ isProtoColor c = true := by
  decide

/-- Witness for C9 (amended) on two cameras addressing slot (U, 2): the
assembled slot equals the last-writer value, which is the second camera's
color. -/
theorem build_face_state_invariants_witness :
    ((dictLookup "U" (build_face_state dOverlap).1).getD []).getD 2 "?" =
        slotAfter dOverlap "U" 2 ∧
      slotAfter dOverlap "U" 2 = "Y" :=
  ⟨(build_face_state_invariants dOverlap).2.2.1 "U" (by decide) 2 (by decide),
   by decide⟩

lemma checkFaces_ok_of (fs : FaceState) (faces : List String)
    (h : ∀ f ∈ faces, (dictLookup f fs).map List.length = some 9) :
    checkFaces fs faces = Except.ok () := by
  induction faces with
  | nil => rfl
  | cons f rest ih =>
    have hf := h f (List.mem_cons_self f rest)
    obtain ⟨vals, hv, hl⟩ : ∃ vals, dictLookup f fs = some vals ∧ vals.length = 9 := by
      cases hlk : dictLookup f fs with
      | none => rw [hlk] at hf; cases hf
      | some vals => rw [hlk] at hf; exact ⟨vals, rfl, Option.some.inj hf⟩
    simp only [checkFaces, hv, if_pos hl]
    exact ih fun g hg => h g (List.mem_cons_of_mem f hg)

lemma checkFaces_ok_shape (fs : FaceState) (faces : List String)
    (h : checkFaces fs faces = Except.ok ()) :
    ∀ f ∈ faces, (dictLookup f fs).map List.length = some 9 := by
  induction faces with
  | nil => intro f hf; cases hf
  | cons f rest ih =>
    intro g hg
    rw [checkFaces] at h
    cases hlk : dictLookup f fs with
    | none => rw [hlk] at h; cases h
    | some vals =>
      rw [hlk] at h
      have h' : (if vals.length = 9 then checkFaces fs rest
          else Except.error ("Face " ++ f ++ " is missing or incomplete")) =
          Except.ok () := h
      by_cases hl : vals.length = 9
      · rw [if_pos hl] at h'
        rcases List.mem_cons.1 hg with rfl | hgr
        · simp [hlk, hl]
        · exact ih h' g hgr
      · rw [if_neg hl] at h'
        cases h' 

lemma getCenters_ok_of_all (fs : FaceState) (faces : List String)
    (h : ∀ f ∈ faces, isProtoColor (centerRead fs f) = true) :
    getCenters fs faces = Except.ok (faces.map fun f => (f, centerRead fs f)) := by
  induction faces with
  | nil => rfl
  | cons f rest ih =>
    simp only [getCenters, h f (List.mem_cons_self f rest), if_pos,
      ih fun g hg => h g (List.mem_cons_of_mem f hg), List.map_cons]

lemma getCenters_ok_shape (fs : FaceState) (faces : List String)
    (cs : List (String × String)) (h : getCenters fs faces = Except.ok cs) :
    cs = (faces.map fun f => (f, centerRead fs f)) ∧
      ∀ f ∈ faces, isProtoColor (centerRead fs f) = true := by
  induction faces generalizing cs with
  | nil =>
    cases h
    exact ⟨rfl, fun f hf => absurd hf (List.not_mem_nil f)⟩
  | cons f rest ih =>
    rw [getCenters] at h
    by_cases hp : isProtoColor (centerRead fs f) = true
    · rw [if_pos hp] at h
      cases hrec : getCenters fs rest with
      | error e => rw [hrec] at h; cases h
      | ok cs' =>
        rw [hrec] at h
        cases h
        obtain ⟨h1, h2⟩ := ih cs' hrec
        refine ⟨by rw [h1, List.map_cons], ?_⟩
        intro g hg
        rcases List.mem_cons.1 hg with rfl | hgr
        · exact hp
        · exact h2 g hgr
    · rw [if_neg hp] at h
      cases h

lemma getCenters_error_of_bad (fs : FaceState) (faces : List String) (f : String)
    (hf : f ∈ faces) (hbad : isProtoColor (centerRead fs f) = false) :
    ∃ e, getCenters fs faces = Except.error e := by
  induction faces with
  | nil => cases hf
  | cons g rest ih =>
    by_cases hg : isProtoColor (centerRead fs g) = true
    · have hfr : f ∈ rest := by
        rcases List.mem_cons.1 hf with rfl | h
        · rw [hg] at hbad; cases hbad
        · exact h
      obtain ⟨e, he⟩ := ih hfr
      exact ⟨e, by simp only [getCenters, hg, if_pos, he]⟩
    · exact ⟨_, by simp only [getCenters, if_neg hg]; rfl⟩

lemma mapFaceColors_ok (c2f : List (String × String)) (cs ls : List String)
    (h : mapFaceColors c2f cs = Except.ok ls) :
    List.Forall₂ (fun c g => dictLookup c c2f = some g) cs ls := by
  induction cs generalizing ls with
  | nil => cases h; exact List.Forall₂.nil
  | cons c cs ih =>
    rw [mapFaceColors] at h
    cases hlk : dictLookup c c2f with
    | none => rw [hlk] at h; cases h
    | some g =>
      rw [hlk] at h
      cases hrec : mapFaceColors c2f cs with
      | error e => rw [hrec] at h; cases h
      | ok l =>
        rw [hrec] at h
        cases h
        exact List.Forall₂.cons hlk (ih l hrec)

lemma mapAllFaces_ok (c2f : List (String × String)) (fs : FaceState)
    (faces : List String) (parts : List String)
    (h : mapAllFaces c2f fs faces = Except.ok parts) :
    ∃ pl : List (List String),
      parts = pl.flatten ∧
      List.Forall₂
        (fun f part =>
          mapFaceColors c2f ((dictLookup f fs).getD []) = Except.ok part)
        faces pl := by
  induction faces generalizing parts with
  | nil => cases h; exact ⟨[], rfl, List.Forall₂.nil⟩
  | cons f rest ih =>
    rw [mapAllFaces] at h
    cases h1 : mapFaceColors c2f ((dictLookup f fs).getD []) with
    | error e => rw [h1] at h; cases h
    | ok part =>
      rw [h1] at h
      cases h2 : mapAllFaces c2f fs rest with
      | error e => rw [h2] at h; cases h
      | ok tail =>
        rw [h2] at h
        cases h
        obtain ⟨pl, rfl, hpl⟩ := ih tail h2
        exact ⟨part :: pl, rfl, List.Forall₂.cons h1 hpl⟩

lemma dictLookup_eq_some_iff_mem {β : Type} {l : List (String × β)}
    (hnd : (l.map Prod.fst).Nodup) {k : String} {v : β} :
    dictLookup k l = some v ↔ (k, v) ∈ l := by
  induction l with
  | nil => simp [dictLookup]
  | cons p rest ih =>
    rw [List.map_cons, List.nodup_cons] at hnd
    by_cases hp : p.1 = k
    · subst hp
      rw [dictLookup, if_pos rfl]
      constructor
      · intro h
        rw [← Option.some.inj h]
        exact List.mem_cons_self p rest
      · intro h
        rcases List.mem_cons.1 h with heq | hmem
        · rw [congrArg Prod.snd heq.symm]
        · exact absurd (List.mem_map.2 ⟨(p.1, v), hmem, rfl⟩) hnd.1
    · rw [dictLookup, if_neg hp, ih hnd.2]
      constructor
      · exact fun h => List.mem_cons_of_mem p h
      · intro h
        rcases List.mem_cons.1 h with heq | hmem
        · exact absurd (congrArg Prod.fst heq).symm hp
        · exact hmem

lemma nodup_of_dedup_length {α : Type} [DecidableEq α] (l : List α)
    (h : l.dedup.length = l.length) : l.Nodup := by
  have he := List.Sublist.eq_of_length (List.dedup_sublist l) h
  rw [← he]
  exact List.nodup_dedup l

lemma kociemba_ok_parts (fs : FaceState) (out : String)
    (h : cube_to_kociemba_input fs = Except.ok out) :
    ((centersOf fs).map Prod.snd).Nodup ∧
    (∀ f ∈ FACE_ORDER, isProtoColor (centerRead fs f) = true) ∧
    (∀ f ∈ FACE_ORDER, (dictLookup f fs).map List.length = some 9) ∧
    ∃ pl : List (List String),
      out = String.join pl.flatten ∧
      List.Forall₂
        (fun f part => List.Forall₂ (fun c g => (g, c) ∈ centersOf fs)
          ((dictLookup f fs).getD []) part)
        FACE_ORDER pl := by
  unfold cube_to_kociemba_input at h
  cases h1 : checkFaces fs FACE_ORDER with
  | error e => rw [h1] at h; cases h
  | ok u =>
    cases u
    rw [h1] at h
    cases h2 : getCenters fs FACE_ORDER with
    | error e => rw [h2] at h; cases h
    | ok centers =>
      rw [h2] at h
      obtain ⟨hcs, hproto⟩ := getCenters_ok_shape fs FACE_ORDER centers h2
      subst hcs
      have h' : (if ((FACE_ORDER.map fun f => (f, centerRead fs f)).map
            Prod.snd).dedup.length ≠ 6 then
          (Except.error
            "Center colors are not unique; cube orientation cannot be inferred" :
            Except String String)
        else
          match mapAllFaces (((FACE_ORDER.map fun f => (f, centerRead fs f)).map
              fun p => (p.2, p.1)).reverse) fs FACE_ORDER with
          | Except.error e => Except.error e
          | Except.ok result => Except.ok (String.join result)) =
          Except.ok out := h
      clear h
      by_cases hd : ((FACE_ORDER.map fun f => (f, centerRead fs f)).map
          Prod.snd).dedup.length ≠ 6
      · rw [if_pos hd] at h'
        cases h'
      · rw [if_neg hd] at h'
        push_neg at hd
        have hnd : ((FACE_ORDER.map fun f => (f, centerRead fs f)).map
            Prod.snd).Nodup := by
          apply nodup_of_dedup_length
          rw [hd]
          simp [FACE_ORDER]
        cases h3 : mapAllFaces
            (((FACE_ORDER.map fun f => (f, centerRead fs f)).map
              fun p => (p.2, p.1)).reverse) fs FACE_ORDER with
        | error e => rw [h3] at h'; cases h'
        | ok parts =>
          rw [h3] at h'
          cases h' 
          obtain ⟨pl, rfl, hpl⟩ := mapAllFaces_ok _ fs FACE_ORDER parts h3
          refine ⟨hnd, hproto, checkFaces_ok_shape fs FACE_ORDER h1, pl, rfl, ?_⟩
          have hkeys : ((((FACE_ORDER.map fun f => (f, centerRead fs f)).map
              fun p => (p.2, p.1)).reverse).map Prod.fst).Nodup := by
            rw [List.map_reverse, List.map_map]
            refine List.nodup_reverse.2 ?_
            have heq : ((FACE_ORDER.map fun f => (f, centerRead fs f)).map
                  (Prod.fst ∘ fun p => (p.2, p.1))) =
                ((FACE_ORDER.map fun f => (f, centerRead fs f)).map Prod.snd) :=
              List.map_congr_left fun a _ => rfl
            rw [heq]
            exact hnd
          refine hpl.imp ?_
          intro f part hmf
          refine (mapFaceColors_ok _ _ _ hmf).imp ?_
          intro c g hlk
          have hm := (dictLookup_eq_some_iff_mem hkeys).1 hlk
          rw [List.mem_reverse, List.mem_map] at hm
          obtain ⟨p, hp, heq⟩ := hm
          have e1 : p.2 = c := congrArg Prod.fst heq
          have e2 : p.1 = g := congrArg Prod.snd heq
          show (g, c) ∈ centersOf fs
          rw [← e1, ← e2]
          exact hp

/-- C2: on a layout whose six faces all have nine entries, the orientation
resolver fails (never returns a string) as soon as two faces share a center
color or some center is not a known color; when all centers are known
colors and two coincide, the failure carries the orientation-ambiguity
message. -/
theorem kociemba_center_failures (fs : FaceState)
    (hstruct : ∀ f ∈ FACE_ORDER, (dictLookup f fs).map List.length = some 9) :
    (((∃ f ∈ FACE_ORDER, ∃ g ∈ FACE_ORDER, f ≠ g ∧
          centerRead fs f = centerRead fs g) ∨
        (∃ f ∈ FACE_ORDER, isProtoColor (centerRead fs f) = false)) →
      ∃ e, cube_to_kociemba_input fs = Except.error e) ∧
    ((∀ f ∈ FACE_ORDER, isProtoColor (centerRead fs f) = true) →
      (∃ f ∈ FACE_ORDER, ∃ g ∈ FACE_ORDER, f ≠ g ∧
          centerRead fs f = centerRead fs g) →
      cube_to_kociemba_input fs =
        Except.error "Center colors are not unique; cube orientation cannot be inferred") := by
  have hlen6 : ((FACE_ORDER.map fun f => (f, centerRead fs f)).map Prod.snd).length = 6 := by
    simp [FACE_ORDER]
  have part2 : (∀ f ∈ FACE_ORDER, isProtoColor (centerRead fs f) = true) →
      (∃ f ∈ FACE_ORDER, ∃ g ∈ FACE_ORDER, f ≠ g ∧
        centerRead fs f = centerRead fs g) →
      cube_to_kociemba_input fs =
        Except.error "Center colors are not unique; cube orientation cannot be inferred" := by
    intro hall hdup
    unfold cube_to_kociemba_input
    rw [checkFaces_ok_of fs FACE_ORDER hstruct,
      getCenters_ok_of_all fs FACE_ORDER hall]
    show (if ((FACE_ORDER.map fun f => (f, centerRead fs f)).map
          Prod.snd).dedup.length ≠ 6 then
        (Except.error
          "Center colors are not unique; cube orientation cannot be inferred" :
          Except String String)
      else
        match mapAllFaces (((FACE_ORDER.map fun f => (f, centerRead fs f)).map
            fun p => (p.2, p.1)).reverse) fs FACE_ORDER with
        | Except.error e => Except.error e
        | Except.ok result => Except.ok (String.join result)) =
      Except.error "Center colors are not unique; cube orientation cannot be inferred"
    have hguard : ((FACE_ORDER.map fun f => (f, centerRead fs f)).map
        Prod.snd).dedup.length ≠ 6 := by
      intro h6
      have hnd := nodup_of_dedup_length _ (h6.trans hlen6.symm)
      rw [List.map_map] at hnd
      obtain ⟨f, hf, g, hg, hne, heq⟩ := hdup
      exact hne (List.inj_on_of_nodup_map hnd hf hg heq)
    rw [if_pos hguard]
  refine ⟨?_, part2⟩
  intro hbad
  by_cases hall : ∀ f ∈ FACE_ORDER, isProtoColor (centerRead fs f) = true
  · rcases hbad with hdup | ⟨f, hf, hbadf⟩
    · exact ⟨_, part2 hall hdup⟩
    · rw [hall f hf] at hbadf
      cases hbadf
  · push_neg at hall
    obtain ⟨f, hf, hnb⟩ := hall
    have hfb : isProtoColor (centerRead fs f) = false := by
      cases hb : isProtoColor (centerRead fs f)
      · rfl
      · exact absurd hb hnb
    obtain ⟨e, he⟩ := getCenters_error_of_bad fs FACE_ORDER f hf hfb
    refine ⟨e, ?_⟩
    unfold cube_to_kociemba_input
    rw [checkFaces_ok_of fs FACE_ORDER hstruct, he]

/-- Witness for C2 on the all-white layout: its centers are known but all
equal, so resolution fails with the ambiguity error. -/
theorem kociemba_center_failures_witness :
    (((∃ f ∈ FACE_ORDER, ∃ g ∈ FACE_ORDER, f ≠ g ∧
          centerRead fsDup f = centerRead fsDup g) ∨
        (∃ f ∈ FACE_ORDER, isProtoColor (centerRead fsDup f) = false)) →
      ∃ e, cube_to_kociemba_input fsDup = Except.error e) ∧
    ((∀ f ∈ FACE_ORDER, isProtoColor (centerRead fsDup f) = true) →
      (∃ f ∈ FACE_ORDER, ∃ g ∈ FACE_ORDER, f ≠ g ∧
          centerRead fsDup f = centerRead fsDup g) →
      cube_to_kociemba_input fsDup =
        Except.error "Center colors are not unique; cube orientation cannot be inferred") :=
  kociemba_center_failures fsDup (by decide)

lemma data_foldl_append (ls : List String) :
    ∀ acc : String,
      (ls.foldl (· ++ ·) acc).data = acc.data ++ (ls.map String.data).flatten := by
  induction ls with
  | nil => intro acc; simp
  | cons p rest ih =>
    intro acc
    rw [List.foldl_cons, ih, String.data_append, List.map_cons, List.flatten_cons,
      List.append_assoc]

lemma data_join (ls : List String) :
    (String.join ls).data = (ls.map String.data).flatten := by
  have h := data_foldl_append ls ""
  simpa [String.join] using h

lemma face_data_singleton : ∀ f ∈ FACE_ORDER, f.data = [faceChar f] := by decide

lemma flatten_singletons (ls : List String) (h : ∀ p ∈ ls, p ∈ FACE_ORDER) :
    (ls.map String.data).flatten = ls.map faceChar := by
  induction ls with
  | nil => rfl
  | cons p rest ih =>
    rw [List.map_cons, List.flatten_cons,
      face_data_singleton p (h p (List.mem_cons_self p rest)), List.map_cons,
      ih fun q hq => h q (List.mem_cons_of_mem p hq)]
    rfl

lemma faceChar_inj_on :
    ∀ p ∈ FACE_ORDER, ∀ q ∈ FACE_ORDER, p ≠ q → faceChar p ≠ faceChar q := by decide

lemma count_map_faceChar (ls : List String) (hls : ∀ p ∈ ls, p ∈ FACE_ORDER)
    (f₀ : String) (hf₀ : f₀ ∈ FACE_ORDER) :
    (ls.map faceChar).count (faceChar f₀) = ls.count f₀ := by
  induction ls with
  | nil => rfl
  | cons p rest ih =>
    rw [List.map_cons, List.count_cons, List.count_cons,
      ih fun q hq => hls q (List.mem_cons_of_mem p hq)]
    congr 1
    by_cases he : p = f₀
    · simp [he]
    · have hne := faceChar_inj_on p (hls p (List.mem_cons_self p rest)) f₀ hf₀ he
      simp [he, hne]

lemma count_of_forall₂_centers (centers : List (String × String))
    (hnd : (centers.map Prod.snd).Nodup) (cs part : List String)
    (hf : List.Forall₂ (fun c g => (g, c) ∈ centers) cs part) (f₀ : String) :
    part.count f₀ = cs.countP fun c => decide ((f₀, c) ∈ centers) := by
  induction hf with
  | nil => rfl
  | @cons c g cs' part' hcg hrest ih =>
    rw [List.count_cons, List.countP_cons, ih]
    congr 1
    by_cases he : g = f₀
    · subst he
      simp [hcg]
    · have hnm : ¬ (f₀, c) ∈ centers := by
        intro hmem
        exact he (congrArg Prod.fst (List.inj_on_of_nodup_map hnd hcg hmem rfl))
      simp [he, hnm]

lemma mem_centersOf_fst (fs : FaceState) {g c : String}
    (h : (g, c) ∈ centersOf fs) : g ∈ FACE_ORDER ∧ c = centerRead fs g := by
  obtain ⟨f, hf, heq⟩ := List.mem_map.1 h
  have e1 : f = g := congrArg Prod.fst heq
  have e2 : centerRead fs f = c := congrArg Prod.snd heq
  subst e1
  exact ⟨hf, e2.symm⟩

lemma countP_centers_eq (fs : FaceState) (f₀ : String) (hf₀ : f₀ ∈ FACE_ORDER)
    (cs : List String) :
    (cs.countP fun c => decide ((f₀, c) ∈ centersOf fs)) =
      cs.count (centerRead fs f₀) := by
  have hiff : ∀ c, (f₀, c) ∈ centersOf fs ↔ c = centerRead fs f₀ := by
    intro c
    constructor
    · intro h
      exact (mem_centersOf_fst fs h).2
    · rintro rfl
      exact List.mem_map.2 ⟨f₀, hf₀, rfl⟩
  rw [List.count_eq_countP]
  apply List.countP_congr
  intro c hc
  simp only [decide_eq_true_eq, beq_iff_eq]
  exact hiff c

lemma forall₂_mem_right {α β : Type} {R : α → β → Prop} {l₁ : List α} {l₂ : List β}
    (h : List.Forall₂ R l₁ l₂) {b : β} (hb : b ∈ l₂) : ∃ a ∈ l₁, R a b := by
  induction h with
  | nil => cases hb
  | cons h1 h2 ih =>
    rcases List.mem_cons.1 hb with rfl | hb'
    · exact ⟨_, List.mem_cons_self _ _, h1⟩
    · obtain ⟨a, ha, hr⟩ := ih hb'
      exact ⟨a, List.mem_cons_of_mem _ ha, hr⟩

lemma forall₂_sum_eq {α β : Type} (F : α → ℕ) (G : β → ℕ) {l₁ : List α}
    {l₂ : List β} (h : List.Forall₂ (fun a b => G b = F a) l₁ l₂) :
    (l₂.map G).sum = (l₁.map F).sum := by
  induction h with
  | cons h1 h2 ih => simp [h1, ih]
  | nil => rfl

lemma faceColors_length (fs : FaceState) (f : String)
    (h : (dictLookup f fs).map List.length = some 9) :
    ((dictLookup f fs).getD []).length = 9 := by
  cases hlk : dictLookup f fs with
  | none => rw [hlk] at h; cases h
  | some vals =>
    rw [hlk] at h
    simpa using h

/-- C1 (amended): whenever the orientation resolver succeeds, its output is
a 54-character string drawn only from the six face letters, and each face
letter occurs exactly as often as that face's center color occurs among the
54 layout entries (hence exactly 9 times whenever each center color fills
exactly 9 slots). The unamended 9-per-letter claim fails when a center
color occupies more than 9 slots. -/
theorem kociemba_output_shape (fs : FaceState) (out : String)
    (h : cube_to_kociemba_input fs = Except.ok out) :
    out.length = 54 ∧
    (∀ ch ∈ out.data, ch ∈ faceLetters) ∧
    (∀ f ∈ FACE_ORDER,
      out.data.count (faceChar f) = countColorAll fs (centerRead fs f)) := by
  obtain ⟨hnd, hproto, hlen, pl, rfl, hpl⟩ := kociemba_ok_parts fs out h
  have hmem : ∀ p ∈ pl.flatten, p ∈ FACE_ORDER := by
    intro p hp
    rw [List.mem_flatten] at hp
    obtain ⟨part, hpart, hppart⟩ := hp
    obtain ⟨f, hf, hr⟩ := forall₂_mem_right hpl hpart
    obtain ⟨c, hc, hmemc⟩ := forall₂_mem_right hr hppart
    exact (mem_centersOf_fst fs hmemc).1
  have hplen : ∀ part ∈ pl, part.length = 9 := by
    intro part hpart
    obtain ⟨f, hf, hr⟩ := forall₂_mem_right hpl hpart
    rw [← hr.length_eq]
    exact faceColors_length fs f (hlen f hf)
  have h6 : pl.length = 6 := by
    rw [← hpl.length_eq]
    rfl
  have hflatlen : pl.flatten.length = 54 := by
    rw [List.length_flatten]
    have hrep : pl.map List.length = List.replicate pl.length 9 :=
      List.eq_replicate_iff.2 ⟨List.length_map pl List.length, by
        intro b hb
        obtain ⟨part, hpart, rfl⟩ := List.mem_map.1 hb
        exact hplen part hpart⟩
    rw [hrep, List.sum_replicate, h6]
    rfl
  have hdata : (String.join pl.flatten).data = pl.flatten.map faceChar := by
    rw [data_join, flatten_singletons _ hmem]
  refine ⟨?_, ?_, ?_⟩
  · show (String.join pl.flatten).data.length = 54
    rw [hdata, List.length_map, hflatlen]
  · intro ch hch
    rw [hdata] at hch
    obtain ⟨p, hp, rfl⟩ := List.mem_map.1 hch
    exact List.mem_map.2 ⟨p, hmem p hp, rfl⟩
  · intro f hf
    rw [hdata, count_map_faceChar _ hmem f hf, List.count_flatten]
    have hco : List.Forall₂
        (fun g part => (part : List String).count f =
          ((dictLookup g fs).getD []).count (centerRead fs f)) FACE_ORDER pl :=
      hpl.imp fun g part hr =>
        (count_of_forall₂_centers (centersOf fs) hnd _ _ hr f).trans
          (countP_centers_eq fs f hf _)
    exact forall₂_sum_eq _ _ hco

/-- Counterexample for C1 as frozen: fsSkew is complete with six distinct
known centers and the resolver succeeds on it, yet the face letter 'U'
occurs 17 times in the output, not 9. -/
theorem kociemba_output_shape_counterexample :
    cube_to_kociemba_input fsSkew =
      Except.ok "UUUUUUUUUUUUURUUUUFFFFFFFFFDDDDDDDDDLLLLLLLLLBBBBBBBBB" ∧
    "UUUUUUUUUUUUURUUUUFFFFFFFFFDDDDDDDDDLLLLLLLLLBBBBBBBBB".data.count 'U' = 17 ∧
    ¬ "UUUUUUUUUUUUURUUUUFFFFFFFFFDDDDDDDDDLLLLLLLLLBBBBBBBBB".data.count 'U' = 9 := by
  refine ⟨rfl, by decide, by decide⟩

/-- Witness for C1 (amended) on the uniformly colored layout. -/
theorem kociemba_output_shape_witness :
    "UUUUUUUUURRRRRRRRRFFFFFFFFFDDDDDDDDDLLLLLLLLLBBBBBBBBB".length = 54 ∧
    (∀ ch ∈ "UUUUUUUUURRRRRRRRRFFFFFFFFFDDDDDDDDDLLLLLLLLLBBBBBBBBB".data,
      ch ∈ faceLetters) ∧
    (∀ f ∈ FACE_ORDER,
      "UUUUUUUUURRRRRRRRRFFFFFFFFFDDDDDDDDDLLLLLLLLLBBBBBBBBB".data.count
          (faceChar f) =
        countColorAll fsGood (centerRead fsGood f)) :=
  kociemba_output_shape fsGood _ rfl

lemma flatten_getElem_blocks (pl : List (List String))
    (h9 : ∀ p ∈ pl, p.length = 9) :
    ∀ i j : ℕ, i < pl.length → j < 9 →
      pl.flatten[9 * i + j]? = (pl.getD i [])[j]? := by
  induction pl with
  | nil =>
    intro i j hi hj
    exact absurd hi (Nat.not_lt_zero i)
  | cons p rest ih =>
    intro i j hi hj
    have hp9 : p.length = 9 := h9 p (List.mem_cons_self p rest)
    cases i with
    | zero =>
      rw [List.flatten_cons, List.getElem?_append, if_pos (by omega)]
      norm_num
    | succ i' =>
      have hi' : i' < rest.length := by
        have : (p :: rest).length = rest.length + 1 := List.length_cons p rest
        omega
      rw [List.flatten_cons, List.getElem?_append, if_neg (by omega)]
      have he : 9 * (i' + 1) + j - p.length = 9 * i' + j := by omega
      rw [he, ih (fun q hq => h9 q (List.mem_cons_of_mem p hq)) i' j hi' hj]
      rfl

/-- C10: whenever the orientation resolver succeeds, position 9·i + 4 of
the output (the center slot of the i-th face block) carries exactly the
i-th letter of the canonical face order, because the center color of each
face maps back to that face under the color→face bijection. -/
theorem kociemba_center_positions (fs : FaceState) (out : String)
    (h : cube_to_kociemba_input fs = Except.ok out) :
    ∀ i : ℕ, i < 6 →
      out.data[9 * i + 4]? = some (faceChar (FACE_ORDER.getD i "U")) := by
  obtain ⟨hnd, hproto, hlen, pl, rfl, hpl⟩ := kociemba_ok_parts fs out h
  have hmem : ∀ p ∈ pl.flatten, p ∈ FACE_ORDER := by
    intro p hp
    rw [List.mem_flatten] at hp
    obtain ⟨part, hpart, hppart⟩ := hp
    obtain ⟨f, hf, hr⟩ := forall₂_mem_right hpl hpart
    obtain ⟨c, hc, hmemc⟩ := forall₂_mem_right hr hppart
    exact (mem_centersOf_fst fs hmemc).1
  have hplen : ∀ part ∈ pl, part.length = 9 := by
    intro part hpart
    obtain ⟨f, hf, hr⟩ := forall₂_mem_right hpl hpart
    rw [← hr.length_eq]
    exact faceColors_length fs f (hlen f hf)
  have h6 : pl.length = 6 := by
    rw [← hpl.length_eq]
    rfl
  have hdata : (String.join pl.flatten).data = pl.flatten.map faceChar := by
    rw [data_join, flatten_singletons _ hmem]
  intro i hi
  rw [hdata, List.getElem?_map,
    flatten_getElem_blocks pl hplen i 4 (by omega) (by omega)]
  obtain ⟨hleq, hget⟩ := List.forall₂_iff_get.1 hpl
  have hiF : i < FACE_ORDER.length := hi
  have hip : i < pl.length := by omega
  have hri := hget i hiF hip
  have hfmem : FACE_ORDER.get ⟨i, hiF⟩ ∈ FACE_ORDER := List.get_mem _ _ hiF
  have hclen : ((dictLookup (FACE_ORDER.get ⟨i, hiF⟩) fs).getD []).length = 9 :=
    faceColors_length fs _ (hlen _ hfmem)
  obtain ⟨hleq2, hget2⟩ := List.forall₂_iff_get.1 hri
  have h4c : (4 : ℕ) < ((dictLookup (FACE_ORDER.get ⟨i, hiF⟩) fs).getD []).length := by
    omega
  have h4p : (4 : ℕ) < (pl.get ⟨i, hip⟩).length := by
    rw [← hleq2]
    omega
  have hrel := hget2 4 h4c h4p
  have hcenter : ((dictLookup (FACE_ORDER.get ⟨i, hiF⟩) fs).getD []).get ⟨4, h4c⟩ =
      centerRead fs (FACE_ORDER.get ⟨i, hiF⟩) := by
    show _ = ((dictLookup (FACE_ORDER.get ⟨i, hiF⟩) fs).getD []).getD 4 "?"
    rw [List.getD_eq_getElem?_getD, List.getElem?_eq_getElem h4c]
    rfl
  have hrel' : ((pl.get ⟨i, hip⟩).get ⟨4, h4p⟩,
      centerRead fs (FACE_ORDER.get ⟨i, hiF⟩)) ∈ centersOf fs := by
    rw [← hcenter]
    exact hrel
  have hpair2 : (FACE_ORDER.get ⟨i, hiF⟩,
      centerRead fs (FACE_ORDER.get ⟨i, hiF⟩)) ∈ centersOf fs :=
    List.mem_map.2 ⟨FACE_ORDER.get ⟨i, hiF⟩, hfmem, rfl⟩
  have hfeq : (pl.get ⟨i, hip⟩).get ⟨4, h4p⟩ = FACE_ORDER.get ⟨i, hiF⟩ :=
    congrArg Prod.fst (List.inj_on_of_nodup_map hnd hrel' hpair2 rfl)
  have hgd : pl.getD i [] = pl.get ⟨i, hip⟩ := by
    rw [List.getD_eq_getElem?_getD, List.getElem?_eq_getElem hip]
    rfl
  have hgetd : FACE_ORDER.getD i "U" = FACE_ORDER.get ⟨i, hiF⟩ := by
    rw [List.getD_eq_getElem?_getD, List.getElem?_eq_getElem hiF]
    rfl
  rw [hgd, List.getElem?_eq_getElem h4p, hgetd]
  show some (faceChar ((pl.get ⟨i, hip⟩).get ⟨4, h4p⟩)) = _
  rw [hfeq]

/-- Witness for C10 on the uniformly colored layout: position 22 (= 9·2 + 4)
of the output is 'F', the third canonical face letter. -/
theorem kociemba_center_positions_witness :
    "UUUUUUUUURRRRRRRRRFFFFFFFFFDDDDDDDDDLLLLLLLLLBBBBBBBBB".data[22]? =
      some 'F' :=
  kociemba_center_positions fsGood _ rfl 2 (by decide)

lemma classify_hsv_else (hsv : ℚ × ℚ × ℚ) (hw : ¬(hsv.2.1 < 35 ∧ hsv.2.2 > 120))
    (a b : ℚ × String) (t : List (ℚ × String))
    (hs : List.insertionSort leKey
        (COLOR_PROTOTYPES_HSV.map fun p => (protoScore hsv p, p.1)) = a :: b :: t) :
    classify_hsv hsv =
      (a.2, clamp (1 - a.1 / (b.1 + 1/1000000)) (5/100) (99/100)) := by
  simp only [classify_hsv]
  rw [if_neg hw, hs]
  norm_num [List.getD]

/-- C4: off the white shortcut, classify scores every prototype with the
55/25/20-weighted hue/saturation/value distance, answers with a prototype of
minimal score, and its confidence is 1 − best/(second-best + 10⁻⁶) clamped
to [0.05, 0.99], where second-best is the least score after removing one
occurrence of the best. -/
theorem classify_weighted_minimum (hsv : ℚ × ℚ × ℚ)
    (hw : ¬(hsv.2.1 < 35 ∧ hsv.2.2 > 120)) :
    ∃ m₁ m₂ : ℚ,
      (COLOR_PROTOTYPES_HSV.map (protoScore hsv)).min? = some m₁ ∧
      ((COLOR_PROTOTYPES_HSV.map (protoScore hsv)).erase m₁).min? = some m₂ ∧
      (∃ p ∈ COLOR_PROTOTYPES_HSV, p.1 = (classify_hsv hsv).1 ∧
        protoScore hsv p = m₁) ∧
      (classify_hsv hsv).2 =
        clamp (1 - m₁ / (m₂ + 1/1000000)) (5/100) (99/100) := by
  have hperm : (List.insertionSort leKey
      (COLOR_PROTOTYPES_HSV.map fun p => (protoScore hsv p, p.1))).Perm
      (COLOR_PROTOTYPES_HSV.map fun p => (protoScore hsv p, p.1)) :=
    List.perm_insertionSort leKey _
  have hsorted : List.Sorted leKey (List.insertionSort leKey
      (COLOR_PROTOTYPES_HSV.map fun p => (protoScore hsv p, p.1))) :=
    List.sorted_insertionSort leKey _
  have hlen : (List.insertionSort leKey
      (COLOR_PROTOTYPES_HSV.map fun p => (protoScore hsv p, p.1))).length = 6 := by
    rw [hperm.length_eq]
    rfl
  obtain ⟨a, b, t, hs⟩ : ∃ a b t, List.insertionSort leKey
      (COLOR_PROTOTYPES_HSV.map fun p => (protoScore hsv p, p.1)) = a :: b :: t := by
    cases h1 : List.insertionSort leKey
        (COLOR_PROTOTYPES_HSV.map fun p => (protoScore hsv p, p.1)) with
    | nil => rw [h1] at hlen; cases hlen
    | cons a rest =>
      cases h2 : rest with
      | nil => rw [h1, h2] at hlen; cases hlen
      | cons b t => exact ⟨a, b, t, rfl⟩
  rw [hs] at hperm hsorted
  obtain ⟨hub, hsorted'⟩ := List.sorted_cons.1 hsorted
  obtain ⟨hub2, -⟩ := List.sorted_cons.1 hsorted'
  have hmapfst : (COLOR_PROTOTYPES_HSV.map fun p => (protoScore hsv p, p.1)).map
      Prod.fst = COLOR_PROTOTYPES_HSV.map (protoScore hsv) :=
    (List.map_map _ _ _).trans (List.map_congr_left fun p _ => rfl)
  have hscoreperm : (COLOR_PROTOTYPES_HSV.map (protoScore hsv)).Perm
      (a.1 :: b.1 :: t.map Prod.fst) := by
    rw [← hmapfst]
    exact ((hperm.map Prod.fst).symm : _)
  have hm1 : (COLOR_PROTOTYPES_HSV.map (protoScore hsv)).min? = some a.1 := by
    apply min?_eq_some_of
    · exact hscoreperm.mem_iff.2 (List.mem_cons_self _ _)
    · intro y hy
      rcases List.mem_cons.1 (hscoreperm.mem_iff.1 hy) with rfl | hy'
      · exact le_refl _
      rcases List.mem_cons.1 hy' with rfl | hy''
      · exact hub b (List.mem_cons_self b t)
      obtain ⟨x, hx, rfl⟩ := List.mem_map.1 hy''
      exact hub x (List.mem_cons_of_mem b hx)
  have heraseperm : ((COLOR_PROTOTYPES_HSV.map (protoScore hsv)).erase a.1).Perm
      (b.1 :: t.map Prod.fst) := by
    have h1 := hscoreperm.erase a.1
    rwa [List.erase_cons_head] at h1
  have hm2 : ((COLOR_PROTOTYPES_HSV.map (protoScore hsv)).erase a.1).min? =
      some b.1 := by
    apply min?_eq_some_of
    · exact heraseperm.mem_iff.2 (List.mem_cons_self _ _)
    · intro y hy
      rcases List.mem_cons.1 (heraseperm.mem_iff.1 hy) with rfl | hy'
      · exact le_refl _
      obtain ⟨x, hx, rfl⟩ := List.mem_map.1 hy'
      exact hub2 x hx
  have hc := classify_hsv_else hsv hw a b t hs
  refine ⟨a.1, b.1, hm1, hm2, ?_, ?_⟩
  · have hamem : a ∈ COLOR_PROTOTYPES_HSV.map fun p => (protoScore hsv p, p.1) :=
      hperm.mem_iff.1 (List.mem_cons_self _ _)
    obtain ⟨p, hp, heq⟩ := List.mem_map.1 hamem
    refine ⟨p, hp, ?_, congrArg Prod.fst heq⟩
    rw [hc]
    exact (congrArg Prod.snd heq).symm ▸ rfl
  · rw [hc]

/-- Witness for C4 at the green prototype's exact HSV value (65, 225, 180),
which is not captured by the white shortcut. -/
theorem classify_weighted_minimum_witness :
    ¬((225 : ℚ) < 35 ∧ (180 : ℚ) > 120) ∧
    (∃ m₁ m₂ : ℚ,
      (COLOR_PROTOTYPES_HSV.map (protoScore (65, 225, 180))).min? = some m₁ ∧
      ((COLOR_PROTOTYPES_HSV.map (protoScore (65, 225, 180))).erase m₁).min? =
        some m₂ ∧
      (∃ p ∈ COLOR_PROTOTYPES_HSV, p.1 = (classify_hsv (65, 225, 180)).1 ∧
        protoScore (65, 225, 180) p = m₁) ∧
      (classify_hsv (65, 225, 180)).2 =
        clamp (1 - m₁ / (m₂ + 1/1000000)) (5/100) (99/100)) :=
  ⟨by norm_num, classify_weighted_minimum (65, 225, 180) (by norm_num)⟩
